import Mathlib

/-!
Verification development for the ezio template compiler.

We shallowly embed the relevant parts of the three pipeline stages:
  * `tmpl2py` (template lexer/transpiler): the literal-text consumption loop,
    the indentation bookkeeping of `PyOut` and the directive-continuation rule
    of `EzioTemplateDriver.extend_head`;
  * `py2moremeaningfulpy` (structural normalizer): `FunctionDefFlattener`,
    `AstGen._resolve_base_class`, `AstGen._scrape_imports`,
    `AstGen._createrespond` and `AstGen.translate`;
  * `compiler` (code generator): the literal/path registries, class method
    tables, name resolution, branch ownership reconciliation, the emitted
    path-lookup functions, and the unsupported-feature checks.
Each definition mirrors the corresponding Python source as directly as the
embedding allows.
-/

namespace Ezio

/-! ## tmpl2py: literal text consumption (`LiteralTextStrategy.consume`)

The strategy scans for the metacharacters `#`, `\` and `$`.  A `\` followed by
`#` or `$` contributes the escaped character and both characters are consumed;
a `\` followed by anything else contributes a literal backslash and only the
backslash is consumed (the next character is reprocessed).  An unescaped `#`
ends literal-text mode (directive mode).  A `$` followed by an identifier-start
character or an opening bracket ends literal-text mode (placeholder mode);
a `$` followed by anything else is itself literal.  A `$` as the very last
character of the input makes the Python code call `.isalpha()` on `None`,
an `AttributeError`, modelled as `LitStop.error`. -/

/-- The test `subsequent_char.isalpha() or subsequent_char in ('_', '(', '[', '{')`
from `LiteralTextStrategy.consume`. -/
def isPlaceholderStart (c : Char) : Bool :=
  c.isAlpha || c = '_' || c = '(' || c = '[' || c = '{'

/-- How a run of literal text ends. -/
inductive LitStop where
  | directive
  | placeholder
  | eof
  | error
deriving DecidableEq, Repr

/-- The loop of `LiteralTextStrategy.consume`, with the whole remaining input
available (the line-by-line refills of `driver.head` are transparent to the
character-level scan).  Returns the consumed literal text, the unconsumed
remainder, and how the run stopped. -/
def literalConsume : List Char → List Char × List Char × LitStop
  | [] => ([], [], .eof)
  | ['\\'] =>
    -- subsequent_char is None, which is not in ("#", "$"): literal backslash
    (['\\'], [], .eof)
  | '\\' :: c :: rest' =>
    if c = '#' ∨ c = '$' then
      -- `\#` means `#`, and `\$` means `$`; both characters consumed
      let (t, r, stop) := literalConsume rest'
      (c :: t, r, stop)
    else
      -- next char is not a metacharacter; write the backslash, consume only it
      let (t, r, stop) := literalConsume (c :: rest')
      ('\\' :: t, r, stop)
  | '#' :: rest =>
    -- unescaped '#': break out into directive mode
    ([], '#' :: rest, .directive)
  | ['$'] =>
    -- `subsequent_char.isalpha()` on None raises AttributeError
    ([], ['$'], .error)
  | '$' :: c :: rest =>
    if isPlaceholderStart c then
      -- start of a placeholder: break out
      ([], '$' :: c :: rest, .placeholder)
    else
      -- just a '$', e.g. `$100.00`
      let (t, r, stop) := literalConsume (c :: rest)
      ('$' :: t, r, stop)
  | c :: rest =>
    let (t, r, stop) := literalConsume rest
    (c :: t, r, stop)

/-! ## tmpl2py: `PyOut` indentation and `EzioTemplateDriver.extend_head` -/

/-- The lexer error taxonomy of `tmpl2py` (subclasses of `EzioLexError`). -/
inductive LexError where
  | dedentTooFar
  | invalidDirective
  | unmatchedDirectives
  | noStratAccepted
deriving DecidableEq, Repr

/-- `PyOut.dedent`: raises `EzioDedentTooFarError` at indentation zero. -/
def pyoutDedent (curIndent : Nat) : Except LexError Nat :=
  if curIndent = 0 then .error .dedentTooFar else .ok (curIndent - 1)

/-- Python's `\s` character class (C locale): space, tab, LF, CR, VT, FF. -/
def isPySpace (c : Char) : Bool :=
  c = ' ' || c = '\t' || c = '\n' || c = '\r' || c = '\x0b' || c = '\x0c'

/-- `DIRECTIVE_REGEX = re.compile('^\\s*#')`: a `#` as the first
non-whitespace character of the line. -/
def matchesDirectiveRegex (line : List Char) : Bool :=
  match line.dropWhile isPySpace with
  | '#' :: _ => true
  | _ => false

/-- `DIRECTIVE_REGEX.sub('', line, count=1)`: remove the matched `\s*#`. -/
def stripDirectiveMarker (line : List Char) : List Char :=
  match line.dropWhile isPySpace with
  | '#' :: rest => rest
  | _ => line

/-- `EzioTemplateDriver.extend_head` on a non-EOF line: while in directive
mode, a continuation line must match `DIRECTIVE_REGEX` or
`EzioInvalidDirectiveError` is raised; the matched marker is stripped. -/
def extendHeadLine (inDirectiveMode : Bool) (line : List Char) :
    Except LexError (List Char) :=
  if inDirectiveMode then
    if matchesDirectiveRegex line then .ok (stripDirectiveMarker line)
    else .error .invalidDirective
  else .ok line

/-- Abstraction of the indentation-relevant effects of one strategy `consume`
call inside `PyOut.mainloop`. -/
inductive LexOp where
  | indent
  | dedent
  | commit (s : String)

/-- Run a sequence of indentation operations from a given level, with
`PyOut.dedent` semantics for dedents. -/
def runLexOps : List LexOp → Nat → Except LexError Nat
  | [], n => .ok n
  | .indent :: rest, n => runLexOps rest (n + 1)
  | .dedent :: rest, n =>
    match pyoutDedent n with
    | .ok n' => runLexOps rest n'
    | .error e => .error e
  | .commit _ :: rest, n => runLexOps rest n

/-- `PyOut.mainloop`: drive to completion, then raise
`EzioUnmatchedDirectivesError` if the final indentation level is nonzero. -/
def mainloopModel (ops : List LexOp) : Except LexError Unit :=
  match runLexOps ops 0 with
  | .error e => .error e
  | .ok n => if n ≠ 0 then .error .unmatchedDirectives else .ok ()

/-! ## py2moremeaningfulpy: the structural normalizer

Statements of the transpiled module, as far as the normalizer inspects them:
function definitions (name, positional parameter names, decorator names,
body), import statements (with their alias list), from-imports, expression
statements wrapping a call to a bare name (what `FunctionDefFlattener` leaves
behind for a `#block`), `pass`, and opaque other statements.  The synthesized
class definition appears in the final module. -/

/-- `BLOCK_TAG` from `ezio.constants`. -/
def BLOCK_TAG : String := "DIRECTIVE__block__"

/-- Python `s.startswith(pre)` (over the character sequence). -/
def strStartsWith (s pre : String) : Bool :=
  pre.data.isPrefixOf s.data

/-- Python `len(s)` (character count). -/
def strLen (s : String) : Nat :=
  s.data.length

/-- Python `s[n:]` (character slicing). -/
def strDrop (s : String) (n : Nat) : String :=
  ⟨s.data.drop n⟩

inductive Stmt where
  | funcDef (name : String) (args : List String) (decorators : List String)
      (body : List Stmt)
  | imp (names : List (String × Option String))
  | importFrom (module : String)
  | exprCall (funcName : String)
  | passStmt
  | classDef (name : String) (bases : List String) (body : List Stmt)
  | other (tag : Nat)
deriving Repr

/-- The tail of `FunctionDefFlattener.visit_FunctionDef`, applied after the
children have been flattened into `body'` (hoisting `hoisted`): the
`BLOCK_TAG` check, renaming, `self` insertion, hoisting, and the left-behind
call for a `#block`.  The `assert len(blockname) > 0` is an error. -/
def hoistFuncDef (name : String) (args decs : List String)
    (body' hoisted : List Stmt) : Except String (Option Stmt × List Stmt) :=
  if strStartsWith name BLOCK_TAG then
    let blockname := strDrop name (strLen BLOCK_TAG)
    if strLen blockname = 0 then .error "a #block must have a name"
    else
      -- hoist the def under its unmunged name, with a self parameter,
      -- and replace it by an expression statement calling it
      .ok (some (.exprCall blockname),
        hoisted ++ [.funcDef blockname ("self" :: args) decs body'])
  else
    -- hoist the def (self parameter added) and delete the node
    .ok (none, hoisted ++ [.funcDef name ("self" :: args) decs body'])

mutual

/-- `FunctionDefFlattener.visit_FunctionDef` (and the `generic_visit`
driving it over a statement list).  Returns the replacement statement
(`none` means the node is deleted) and the list of hoisted definitions, in
postorder.  `EZIO_noop` wipes the body to `[Pass()]`, whose flattening
hoists nothing and leaves it unchanged. -/
def flattenStmt : Stmt → Except String (Option Stmt × List Stmt)
  | .funcDef name args decs body =>
    if decs.contains "EZIO_skip" then
      -- omit the entire node, without adding it to hoisted_defs
      .ok (none, [])
    else if decs.contains "EZIO_noop" then
      hoistFuncDef name args decs [Stmt.passStmt] []
    else
      match flattenStmtList body with
      | .error e => .error e
      | .ok (body', hoisted) => hoistFuncDef name args decs body' hoisted
  | s => .ok (some s, [])

/-- Flatten a statement list, accumulating hoisted definitions in visit
order (which makes the overall order postorder). -/
def flattenStmtList : List Stmt → Except String (List Stmt × List Stmt)
  | [] => .ok ([], [])
  | s :: rest =>
    match flattenStmt s with
    | .error e => .error e
    | .ok (s', h1) =>
      match flattenStmtList rest with
      | .error e => .error e
      | .ok (rest', h2) =>
        .ok ((match s' with | some x => x :: rest' | none => rest'), h1 ++ h2)

end

/-- `AstGen._resolve_base_class`: inspects `body[0]` unconditionally; when it
is `import X as __extends__` the superclass is `X` and the statement is
removed.  On an empty body, `body[0]` raises `IndexError`. -/
def resolveBaseClass (body : List Stmt) :
    Except String (List String × List Stmt) :=
  match body with
  | [] => .error "IndexError: list index out of range"
  | first :: rest =>
    match first with
    | .imp [(name, some asname)] =>
      if asname = "__extends__" then .ok ([name], rest)
      else .ok ([], first :: rest)
    | _ => .ok ([], first :: rest)

/-- `isinstance(node, (Import, ImportFrom))`. -/
def isImportStmt : Stmt → Bool
  | .imp _ => true
  | .importFrom _ => true
  | _ => false

/-- `AstGen._scrape_imports`: imports move to module scope (in order),
non-imports remain (in order). -/
def scrapeImports (body : List Stmt) : List Stmt × List Stmt :=
  (body.filter isImportStmt, body.filter (fun s => !isImportStmt s))

/-- `AstGen._createrespond`: the synthesized main method. -/
def createRespond (remaining : List Stmt) : Stmt :=
  .funcDef "respond" ["self"] [] remaining

/-- `AstGen.translate` on a module body: resolve the base class, hoist
definitions into the class body, scrape imports, append the `respond`
method last, and emit imports followed by the single class definition. -/
def translate (tmplName : String) (body : List Stmt) :
    Except String (List Stmt) :=
  match resolveBaseClass body with
  | .error e => .error e
  | .ok (bases, body1) =>
    match flattenStmtList body1 with
    | .error e => .error e
    | .ok (body2, hoisted) =>
      let (imports, nonimports) := scrapeImports body2
      .ok (imports ++ [.classDef tmplName bases (hoisted ++ [createRespond nonimports])])

/-- Count the class definitions in a statement list. -/
def countClassDefs (stmts : List Stmt) : Nat :=
  stmts.countP (fun s => match s with | .classDef _ _ _ => true | _ => false)

/-! ## compiler: error kinds

Compile-time failures in `ezio.compiler` are raised either as plain
`assert` statements (`AssertionError`) or as the dedicated
`EZIOUnsupportedException`. -/

inductive PyError where
  | assertionError (msg : String)
  | ezioUnsupported (msg : String)
  | exception (msg : String)
deriving DecidableEq, Repr

/-- Is this error an `EZIOUnsupportedException`? -/
def PyError.isEzioUnsupported : PyError → Bool
  | .ezioUnsupported _ => true
  | _ => false

/-! ## compiler: unsupported-feature checks

Each of the following mirrors the guard in the named visitor that fires when
the construct is outside the supported subset. -/

/-- `visit_ClassDef`: `assert len(class_node.bases) <= 1, 'Multiple
inheritance is unsupported'`. -/
def checkClassBases (numBases : Nat) : Option PyError :=
  if numBases ≤ 1 then none
  else some (.assertionError "Multiple inheritance is unsupported")

/-- `visit_Call`: `assert not any((call_node.starargs, call_node.kwargs)),
'Unsupported feature'`. -/
def checkCallStarArgs (hasStarargs hasKwargs : Bool) : Option PyError :=
  if hasStarargs || hasKwargs then some (.assertionError "Unsupported feature")
  else none

/-- `visit_Compare`: `assert len(compare_node.ops) == 1, 'Multiple
comparisons in the same expression are unsupported.'`. -/
def checkCompareOps (numOps : Nat) : Option PyError :=
  if numOps = 1 then none
  else some (.assertionError "Multiple comparisons in the same expression are unsupported.")

/-- `visit_Assign`: `assert len(assignment_node.targets) == 1, 'Tuple
unpacking is unsupported.'` then `assert isinstance(target, _ast.Name),
'Assign to non-names is unsupported.'`. -/
def checkAssignTargets (numTargets : Nat) (targetIsName : Bool) : Option PyError :=
  if numTargets ≠ 1 then some (.assertionError "Tuple unpacking is unsupported.")
  else if !targetIsName then some (.assertionError "Assign to non-names is unsupported.")
  else none

/-- `visit_Subscript`: `if not isinstance(slice_node, _ast.Index): raise
EZIOUnsupportedException("Can't use slices")`. -/
def checkSubscriptSlice (sliceIsIndex : Bool) : Option PyError :=
  if sliceIsIndex then none
  else some (.ezioUnsupported "Can't use slices")

/-- `_visit_sequence`: `if not variable_name: raise
EZIOUnsupportedException('Bare sequence without a variable target')`. -/
def checkSequenceTarget (hasTargetVariable : Bool) : Option PyError :=
  if hasTargetVariable then none
  else some (.ezioUnsupported "Bare sequence without a variable target")

/-! ## compiler: `LiteralRegistry`

Values the registry can intern: ints (Python `int`/`long`), floats and
strings.  The intern table is keyed by `(canonical_type, value)` under
Python equality, under which `3 == 3.0` across int/float. -/

inductive PyVal where
  | int (n : Int)
  | float (q : Rat)
  | str (s : String)
deriving DecidableEq, Repr

/-- `LiteralRegistry._canonicalize_type`. -/
def canonicalizeType : PyVal → String
  | .int _ => "int"
  | .float _ => "float"
  | .str _ => "str"

/-- Python `==` on the modelled values (numeric across int/float). -/
def pyValEq : PyVal → PyVal → Bool
  | .int a, .int b => a = b
  | .float a, .float b => a = b
  | .str a, .str b => a = b
  | .int a, .float b => (a : Rat) = b
  | .float a, .int b => a = (b : Rat)
  | _, _ => false

/-- Python `==` on the dict keys produced by `LiteralRegistry._value_to_key`,
i.e. on the pairs `(canonical_type, value)`. -/
def keyEq (a b : PyVal) : Bool :=
  canonicalizeType a = canonicalizeType b && pyValEq a b

structure LiteralRegistry where
  literals : List PyVal
  literalKeyToIndex : List (PyVal × Nat)
deriving Repr

/-- `self.literal_key_to_index.get(key)`. -/
def lookupLiteralKey : List (PyVal × Nat) → PyVal → Option Nat
  | [], _ => none
  | p :: rest, v => if keyEq p.1 v then some p.2 else lookupLiteralKey rest v

/-- `LiteralRegistry.register`: intern `literal` and return its index. -/
def LiteralRegistry.register (r : LiteralRegistry) (v : PyVal) :
    Nat × LiteralRegistry :=
  match lookupLiteralKey r.literalKeyToIndex v with
  | some i => (i, r)
  | none =>
    let lits := r.literals ++ [v]
    let index := lits.length - 1
    (index, ⟨lits, r.literalKeyToIndex ++ [(v, index)]⟩)

/-- Invariant maintained by `LiteralRegistry.register` starting from the
empty registry: every interned index is in range, and distinct entries have
non-equal keys and distinct indices. -/
def LiteralRegistry.WF (r : LiteralRegistry) : Prop :=
  (∀ p ∈ r.literalKeyToIndex, p.2 < r.literals.length) ∧
  r.literalKeyToIndex.Pairwise (fun a b => keyEq a.1 b.1 = false ∧ a.2 ≠ b.2)

/-! ## compiler: `PathRegistry` registration -/

structure PathRegistry where
  subpathToFname : List (List String × String)
  uniqueIdCounter : Nat
  literalRegistry : LiteralRegistry
deriving Repr

/-- `subpath in self.subpath_to_fname`. -/
def lookupSubpath : List (List String × String) → List String → Option String
  | [], _ => none
  | q :: rest, p => if q.1 = p then some q.2 else lookupSubpath rest p

/-- `PathRegistry.register`: dedup by exact tuple; a fresh path gets
`"resolvepath_%d"` with the next unique id, and all its segments are
registered in the literal registry. -/
def PathRegistry.register (pr : PathRegistry) (subpath : List String) :
    String × PathRegistry :=
  match lookupSubpath pr.subpathToFname subpath with
  | some fname => (fname, pr)
  | none =>
    let fname := "resolvepath_" ++ toString pr.uniqueIdCounter
    let litreg := subpath.foldl
      (fun lr s => (lr.register (PyVal.str s)).2) pr.literalRegistry
    (fname,
      ⟨pr.subpathToFname ++ [(subpath, fname)], pr.uniqueIdCounter + 1, litreg⟩)

/-! ## compiler: `ClassDefinition` method tables

`ClassDefinition.superclass_def` is either `None` (modelled by `base`) or a
previously compiled definition (modelled by `derived`). -/

structure MethodInfo where
  methodName : String
  params : List String
  defaults : List String
  virtual : Bool
deriving DecidableEq, Repr

inductive ClassDefn where
  | base (className : String) (methods : List (String × MethodInfo))
  | derived (className : String) (superclassDef : ClassDefn)
      (methods : List (String × MethodInfo))
deriving Repr

/-- `self.methods.get(method_name)` (an insertion-ordered dict). -/
def lookupMethod : List (String × MethodInfo) → String → Option MethodInfo
  | [], _ => none
  | p :: rest, m => if p.1 = m then some p.2 else lookupMethod rest m

/-- The class's own method table. -/
def ClassDefn.ownMethods : ClassDefn → List (String × MethodInfo)
  | .base _ ms => ms
  | .derived _ _ ms => ms

/-- `ClassDefinition.get_method`: walk up the inheritance chain; the
superclass chain is consulted before the class's own table, so the entry of
the oldest ancestor defining the method is returned. -/
def ClassDefn.getMethod : ClassDefn → String → Option MethodInfo
  | .base _ ms, m => lookupMethod ms m
  | .derived _ sup ms, m =>
    match sup.getMethod m with
    | some info => some info
    | none => lookupMethod ms m

/-- Flip `virtual` on the entry for `m` in a method table. -/
def setVirtualInList (ms : List (String × MethodInfo)) (m : String) :
    List (String × MethodInfo) :=
  ms.map (fun p => if p.1 = m then (p.1, { p.2 with virtual := true }) else p)

/-- The effect of `superclass_method['virtual'] = True`: mutate, in place,
the entry that `get_method` found (oldest ancestor first). -/
def ClassDefn.markVirtual : ClassDefn → String → ClassDefn
  | .base n ms, m => .base n (setVirtualInList ms m)
  | .derived n sup ms, m =>
    if (sup.getMethod m).isSome then .derived n (sup.markVirtual m) ms
    else .derived n sup (setVirtualInList ms m)

/-- `RESERVED_WORDS` from `ezio.compiler`. -/
def RESERVED_WORDS : List String :=
  ["display", "transaction", "string_literals", "imported_names", "respond"]

/-- Append the freshly defined (non-virtual) method to the own table. -/
def ClassDefn.addOwnMethod (c : ClassDefn) (m : String)
    (params defaults : List String) : ClassDefn :=
  match c with
  | .base n ms => .base n (ms ++ [(m, ⟨m, params, defaults, false⟩)])
  | .derived n sup ms => .derived n sup (ms ++ [(m, ⟨m, params, defaults, false⟩)])

/-- `ClassDefinition.add_method`. -/
def ClassDefn.addMethod (c : ClassDefn) (m : String)
    (params defaults : List String) : Except PyError ClassDefn :=
  if m ≠ "respond" ∧ m ∈ RESERVED_WORDS then
    .error (.assertionError ("Method name " ++ m ++ " is a reserved word"))
  else if (lookupMethod c.ownMethods m).isSome then
    .error (.assertionError ("Cannot double-define method " ++ m))
  else
    match c with
    | .base n ms => .ok ((ClassDefn.base n ms).addOwnMethod m params defaults)
    | .derived n sup ms =>
      match sup.getMethod m with
      | some info =>
        if info.params.length ≠ params.length then
          .error (.assertionError "Incompatible superclass definition")
        else if info.defaults.length ≠ defaults.length then
          .error (.assertionError "Incompatible superclass definition")
        else
          .ok ((ClassDefn.derived n (sup.markVirtual m) ms).addOwnMethod m params defaults)
      | none => .ok ((ClassDefn.derived n sup ms).addOwnMethod m params defaults)

/-! ## compiler: semantics of the lookup functions emitted by
`PathRegistry.finalize`

Objects of the host runtime are names (`Nat`); a runtime supplies the
outcomes of `PyDict_GetItem` (borrowed reference or miss) and
`PyObject_GetAttr` (new reference or failure) per object and segment.
Reference counts are tracked explicitly; each primitive applies its
documented effect. -/

abbrev Obj := Nat

abbrev RefCount := Obj → Int

/-- Adjust the reference count of one object. -/
def bumpRef (rc : RefCount) (o : Obj) (d : Int) : RefCount :=
  fun x => if x = o then rc x + d else rc x

structure PyRuntime where
  /-- `PyDict_GetItem(base, literal)`: borrowed reference on hit. -/
  dictGet : Obj → String → Option Obj
  /-- `PyObject_GetAttr(base, literal)`: new reference on success. -/
  getAttr : Obj → String → Option Obj

/-- One iteration of the emitted per-segment loop: try the dictionary
lookup; on a miss fall back to `PyObject_GetAttr`; on the final segment keep
an owned reference (`Py_XINCREF` after a dictionary hit, the attribute
lookup's own new reference otherwise); on a non-final segment discard the
attribute lookup's new reference (`Py_DECREF`).  Failure returns `none`
with the reference counts as they stand. -/
def pathSegmentStep (rt : PyRuntime) (seg : String) (lastItem : Bool)
    (base : Obj) (rc : RefCount) : Option Obj × RefCount :=
  match rt.dictGet base seg with
  | some temp =>
    if lastItem then (some temp, bumpRef rc temp 1) else (some temp, rc)
  | none =>
    match rt.getAttr base seg with
    | some temp =>
      -- GetAttr returned a new reference
      let rc1 := bumpRef rc temp 1
      if lastItem then (some temp, rc1)
      else (some temp, bumpRef rc1 temp (-1))
    | none => (none, rc)

/-- The emitted loop over the non-empty segment list (`base = temp` after
each successful step). -/
def resolvePathLoop (rt : PyRuntime) : List String → Obj → RefCount →
    Option Obj × RefCount
  | [], base, rc => (some base, rc)
  | [s], base, rc => pathSegmentStep rt s true base rc
  | s :: s' :: rest, base, rc =>
    match pathSegmentStep rt s false base rc with
    | (some b', rc') => resolvePathLoop rt (s' :: rest) b' rc'
    | (none, rc') => (none, rc')

/-- The whole emitted function `resolvepath_%d`: `NULL` base returns `NULL`
immediately; the empty path is `Py_XINCREF(base); return base;`; otherwise
run the per-segment loop. -/
def resolvePathFun (rt : PyRuntime) (subpath : List String)
    (base : Option Obj) (rc : RefCount) : Option Obj × RefCount :=
  match base with
  | none => (none, rc)
  | some b =>
    match subpath with
    | [] => (some b, bumpRef rc b 1)
    | s :: rest => resolvePathLoop rt (s :: rest) b rc

/-! ## compiler: name resolution (`CodeGenerator.visit_Name`)

The emitted C++ lines relevant to name resolution, abstracted. -/

inductive CLine where
  /-- `target = cexpr;` -/
  | assign (dst : String) (src : String)
  /-- `if (!var) { PyErr_SetString(PyExc_NameError, "name"); goto handler; }` -/
  | nameErrorCheck (var : String) (name : String) (handler : String)
  /-- `if (!this->self_ptr) { PyErr_SetString(PyExc_NameError, ...); goto handler; }` -/
  | selfNullCheck (handler : String)
  /-- `target = PyDict_GetItem(this->display, string_literals[i]);` -/
  | displayGetItem (dst : String) (name : String)
  /-- `if (!var) { PyErr_SetString(PyExc_KeyError, "name"); goto handler; }` -/
  | keyErrorCheck (var : String) (name : String) (handler : String)
  /-- `Py_INCREF(var);` -/
  | incref (var : String)
deriving DecidableEq, Repr

/-- `NameStatus`. -/
structure NameStatus where
  accessor : String
  scope : String
  null : Bool
  ownedRef : Bool
deriving DecidableEq, Repr

/-- The compile-time environment a name is resolved against. -/
structure ResolveEnv where
  /-- `self.namespaces`, outermost first (lookups walk it in reverse). -/
  namespaces : List (List (String × NameStatus))
  /-- `ImportRegistry.symbols_to_index`. -/
  importSymbols : List (List String × Nat)
  /-- `CompilerSettings.template_mode`. -/
  templateMode : Bool
  /-- `self.exception_handler_stack[-1]`. -/
  handler : String

/-- `CodeGenerator._get_name_status`: walk `reversed(self.namespaces)`. -/
def getNameStatus (env : ResolveEnv) (name : String) : Option NameStatus :=
  env.namespaces.reverse.findSome? (fun ns =>
    ns.findSome? (fun p => if p.1 = name then some p.2 else none))

/-- `CodeGenerator._local_resolve_name`: native locals resolve to their own
name (with a NameError check first when the local may be unset); the
self-name resolves to `this->self_ptr` behind a null check; any other
accessor raises. -/
def localResolveName (env : ResolveEnv) (name : String) :
    Except PyError (Option (String × List CLine)) :=
  match getNameStatus env name with
  | none => .ok none
  | some st =>
    if st.accessor = "NATIVE" ∧ st.null = false then .ok (some (name, []))
    else if st.accessor = "NATIVE" ∧ st.null = true then
      .ok (some (name, [.nameErrorCheck name name env.handler]))
    else if st.accessor = "SELF" then
      .ok (some ("this->self_ptr", [.selfNullCheck env.handler]))
    else .error (.exception ("Can't process name " ++ name ++ " with unsupported status"))

/-- `CodeGenerator._builtin_resolve_name` over `PYBUILTIN_TO_CEXPR`. -/
def builtinResolveName (name : String) : Option String :=
  if name = "None" then some "Py_None"
  else if name = "True" then some "Py_True"
  else if name = "False" then some "Py_False"
  else none

/-- `CodeGenerator._import_resolve_name` (and, identically,
`ImportRegistry.resolve_import_path` on the one-element path). -/
def importResolveName (env : ResolveEnv) (name : String) : Option String :=
  (env.importSymbols.findSome? (fun p => if p.1 = [name] then some p.2 else none)).map
    (fun i => "imported_names[" ++ toString i ++ "]")

/-- `CodeGenerator._visit_Name_from_display` with a target variable:
`PyDict_GetItem` from the display dict, KeyError carrying the name on a
miss (jumping to the current exception handler), then `Py_INCREF`; the
visit reports a new reference. -/
def visitNameFromDisplay (env : ResolveEnv) (name : String) (target : String) :
    List CLine × Bool :=
  ([.displayGetItem target name,
    .keyErrorCheck target name env.handler,
    .incref target], true)

/-- `CodeGenerator.visit_Name` with a target variable: the emitted lines
and whether a new reference was created.  Resolution is attempted as a
local, then as an import, then as a builtin, then as an import path, then
(in template mode only) from the display dictionary. -/
def visitNameTarget (env : ResolveEnv) (name : String) (target : String) :
    Except PyError (List CLine × Bool) :=
  match localResolveName env name with
  | .error e => .error e
  | .ok localRes =>
    let static : Option (String × List CLine) :=
      (localRes.orElse (fun _ =>
        (importResolveName env name).map (fun c => (c, [])))).orElse (fun _ =>
          ((builtinResolveName name).map (fun c => (c, []))).orElse (fun _ =>
            (importResolveName env name).map (fun c => (c, []))))
    match static with
    | some (cexpr, lines) =>
      -- all static resolutions return a borrowed ref
      .ok (lines ++ [.assign target cexpr], false)
    | none =>
      if env.templateMode then .ok (visitNameFromDisplay env name target)
      else .error (.exception ("Not in template mode; can't resolve " ++ name ++ " statically"))

/-- The resolution order asserted by the specification: local, then
builtin, then import, then display.  (Differs from `visitNameTarget` only
in the relative order of the builtin and import attempts.) -/
def visitNameSpecOrder (env : ResolveEnv) (name : String) (target : String) :
    Except PyError (List CLine × Bool) :=
  match localResolveName env name with
  | .error e => .error e
  | .ok localRes =>
    let static : Option (String × List CLine) :=
      (localRes.orElse (fun _ =>
        (builtinResolveName name).map (fun c => (c, [])))).orElse (fun _ =>
          (importResolveName env name).map (fun c => (c, [])))
    match static with
    | some (cexpr, lines) => .ok (lines ++ [.assign target cexpr], false)
    | none =>
      if env.templateMode then .ok (visitNameFromDisplay env name target)
      else .error (.exception ("Not in template mode; can't resolve " ++ name ++ " statically"))

/-! ## compiler: branch ownership reconciliation
(`visit_IfExp` and `visit_BoolOp`)

We record, per construct, whether a `Py_INCREF(target)` is inserted on each
of the two execution paths, as a function of the new-reference statuses the
two branch compilations reported (and, for `visit_BoolOp`, of whether the
second operand is itself a `BoolOp` node). -/

/-- `visit_IfExp`: `(incref added to the then-branch fixup, incref added to
the else-branch fixup)`. -/
def ifExpIncrefs (newref1 newref2 : Bool) : Bool × Bool :=
  if newref1 && !newref2 then (false, true)
  else if newref2 && !newref1 then (true, false)
  else (false, false)

/-- `visit_IfExp` returns `newref_1 or newref_2`. -/
def ifExpNewref (newref1 newref2 : Bool) : Bool :=
  newref1 || newref2

/-- `visit_BoolOp`: `(incref emitted on the path that evaluates the second
operand, incref emitted on the short-circuit path)`.  The first component
is emitted only in the `else` arm of `isinstance(value2, _ast.BoolOp)`;
the second is emitted unconditionally after the branch. -/
def boolOpIncrefs (newref1 newref2 value2IsBoolOp : Bool) : Bool × Bool :=
  let evalPathIncref := !value2IsBoolOp && (newref1 && !newref2)
  let shortCircuitIncref := newref2 && !newref1
  (evalPathIncref, shortCircuitIncref)

/-- `visit_BoolOp` returns `new_ref_1 or new_ref_2`. -/
def boolOpNewref (newref1 newref2 : Bool) : Bool :=
  newref1 || newref2

/-- Final ownership of the target on the path that evaluated the second
operand (the first operand's reference was released before that evaluation). -/
def boolOpEvalPathOwns (newref1 newref2 value2IsBoolOp : Bool) : Bool :=
  newref2 || (boolOpIncrefs newref1 newref2 value2IsBoolOp).1

/-- Final ownership of the target on the short-circuit path (the first
operand's value is kept). -/
def boolOpShortCircuitOwns (newref1 newref2 value2IsBoolOp : Bool) : Bool :=
  newref1 || (boolOpIncrefs newref1 newref2 value2IsBoolOp).2

end Ezio

namespace Ezio

/-! ## Theorems -/

/-- Claim C3, counterexample: in the literal text `$$1`, the doubled
placeholder marker does not produce exactly one literal marker character:
both `$`s survive into the output (each `$` not followed by an
identifier-start character is itself literal). -/
theorem C3_counterexample :
    (literalConsume ("$$1\n".toList)).1 = "$$1\n".toList ∧
    (literalConsume ("$$1\n".toList)).1.count '$' = 2 ∧
    ¬ ((literalConsume ("$$1\n".toList)).1.count '$' = 1) := by
  refine ⟨rfl, rfl, ?_⟩
  decide

/-- Claim C3, amended: in literal text, a doubled marker `$$` yields exactly
one literal `$` only when the second `$` is followed by an identifier-start
character or opening bracket (the second `$` then begins a placeholder);
otherwise both `$`s are literal.  `\#` and `\$` produce the literal `#`/`$`;
a backslash before any other character produces a literal backslash with
the following character left in the input and processed normally. -/
theorem C3_literal_escapes :
    (∀ c s, isPlaceholderStart c = true →
      literalConsume ('$' :: '$' :: c :: s) = (['$'], '$' :: c :: s, .placeholder)) ∧
    (∀ c s, isPlaceholderStart c = false →
      literalConsume ('$' :: '$' :: c :: s) =
        ('$' :: '$' :: (literalConsume (c :: s)).1, (literalConsume (c :: s)).2)) ∧
    (∀ s, literalConsume ('\\' :: '#' :: s) =
      ('#' :: (literalConsume s).1, (literalConsume s).2)) ∧
    (∀ s, literalConsume ('\\' :: '$' :: s) =
      ('$' :: (literalConsume s).1, (literalConsume s).2)) ∧
    (∀ c s, c ≠ '#' → c ≠ '$' →
      literalConsume ('\\' :: c :: s) =
        ('\\' :: (literalConsume (c :: s)).1, (literalConsume (c :: s)).2)) := by
  refine ⟨?_, ?_, ?_, ?_, ?_⟩
  · intro c s h
    simp [literalConsume, h, show isPlaceholderStart '$' = false from by decide]
  · intro c s h
    simp [literalConsume, h, show isPlaceholderStart '$' = false from by decide]
  · intro s
    simp [literalConsume]
  · intro s
    simp [literalConsume]
  · intro c s h1 h2
    simp [literalConsume, h1, h2]

/-- Claim C3 witness: the amended behavior at concrete inputs. -/
theorem C3_witness :
    literalConsume ('$' :: '$' :: 'f' :: "oo".toList) =
      (['$'], '$' :: 'f' :: "oo".toList, .placeholder) ∧
    literalConsume ('$' :: '$' :: '1' :: "\n".toList) =
      ('$' :: '$' :: (literalConsume ('1' :: "\n".toList)).1,
        (literalConsume ('1' :: "\n".toList)).2) ∧
    literalConsume ('\\' :: 'a' :: []) =
      ('\\' :: (literalConsume ('a' :: [])).1, (literalConsume ('a' :: [])).2) :=
  ⟨C3_literal_escapes.1 'f' "oo".toList (by decide),
   C3_literal_escapes.2.1 '1' "\n".toList (by decide),
   C3_literal_escapes.2.2.2.2 'a' [] (by decide) (by decide)⟩

/-- Claim C9: the lexer raises `EzioDedentTooFarError` exactly when a dedent
is requested at indentation level zero; `extend_head` raises
`EzioInvalidDirectiveError` exactly when, in directive mode, the
continuation line does not match the directive-marker pattern `^\s*#`; and
the main loop raises `EzioUnmatchedDirectivesError` exactly when it reaches
the end of input with a nonzero indentation level. -/
theorem C9_lexer_errors :
    (∀ n, pyoutDedent n = .error .dedentTooFar ↔ n = 0) ∧
    (∀ line, extendHeadLine true line = .error .invalidDirective ↔
      matchesDirectiveRegex line = false) ∧
    (∀ ops n, runLexOps ops 0 = .ok n →
      (mainloopModel ops = .error .unmatchedDirectives ↔ n ≠ 0)) := by
  refine ⟨?_, ?_, ?_⟩
  · intro n
    unfold pyoutDedent
    split
    · simp [*]
    · simp [*]
  · intro line
    unfold extendHeadLine
    split
    · split
      · simp_all
      · simp_all
    · simp_all
  · intro ops n h
    unfold mainloopModel
    rw [h]
    by_cases hn : n = 0
    · subst hn
      simp
    · simp [hn]

/-- Claim C9 witness: a lone `#if` (indent without matching `#end`) ends
with indentation 1 and raises the unmatched-directives error. -/
theorem C9_witness :
    mainloopModel [.indent, .commit "if x:"] = .error .unmatchedDirectives :=
  (C9_lexer_errors.2.2 [.indent, .commit "if x:"] 1 rfl).mpr (by decide)

/-- Claim C10: `AstGen._resolve_base_class` unconditionally indexes
`body[0]`, so normalizing an empty module body fails with an indexing
error; whenever normalization succeeds the body was non-empty and the
resulting module contains exactly one class definition. -/
theorem C10_normalizer_requires_nonempty_body :
    (∀ tmplName, translate tmplName [] =
      .error "IndexError: list index out of range") ∧
    (∀ tmplName body m, translate tmplName body = .ok m →
      body ≠ [] ∧ countClassDefs m = 1) := by
  constructor
  · intro tmplName
    rfl
  · intro tmplName body m h
    constructor
    · rintro rfl
      exact absurd h (by simp [translate, resolveBaseClass])
    · unfold translate at h
      split at h
      · exact absurd h (by simp)
      · split at h
        · exact absurd h (by simp)
        · rename_i body2 hoisted heq2
          simp only [scrapeImports, Except.ok.injEq] at h
          subst h
          unfold countClassDefs
          rw [List.countP_append]
          have hzero : (body2.filter isImportStmt).countP
              (fun s => match s with | .classDef _ _ _ => true | _ => false) = 0 := by
            rw [List.countP_eq_zero]
            intro s hs
            have := (List.mem_filter.mp hs).2
            cases s <;> simp_all [isImportStmt]
          rw [hzero]
          rfl

/-- Claim C10 witness: a sample non-empty body normalizes to a one-class
module. -/
theorem C10_witness :
    ([Stmt.other 0] ≠ ([] : List Stmt)) ∧
    countClassDefs [Stmt.classDef "T" [] [createRespond [Stmt.other 0]]] = 1 :=
  C10_normalizer_requires_nonempty_body.2 "T" [Stmt.other 0]
    [Stmt.classDef "T" [] [createRespond [Stmt.other 0]]] rfl

/-- Claim C8, counterexample: a block-tagged definition decorated with
`EZIO_skip` is dropped entirely — nothing is hoisted and no call expression
is left behind — so not every block-tagged definition is hoisted with a
call left at its original position. -/
theorem C8_counterexample :
    flattenStmt (.funcDef ("DIRECTIVE__block__" ++ "foo") [] ["EZIO_skip"] []) =
      .ok (none, []) ∧
    flattenStmt (.funcDef ("DIRECTIVE__block__" ++ "foo") [] ["EZIO_skip"] []) ≠
      .ok (some (.exprCall "foo"),
        [.funcDef "foo" ["self"] ["EZIO_skip"] []]) := by
  refine ⟨rfl, ?_⟩
  intro h
  have h' : (Except.ok (none, ([] : List Stmt)) :
      Except String (Option Stmt × List Stmt)) =
      .ok (some (.exprCall "foo"), [.funcDef "foo" ["self"] ["EZIO_skip"] []]) := h
  simp at h'

/-- Claim C8, amended: every block-tagged definition not decorated with the
skip marker is hoisted to the class body with the tag stripped from its
name and an implicit first `self` parameter, leaving behind an expression
statement calling it by the untagged name; non-block definitions (again
when not skipped) are hoisted with `self` inserted and removed with nothing
left behind; in both cases an `EZIO_noop` decoration first replaces the
definition's body with a single `pass` statement, so the effective body —
`[Pass()]` for a noop-decorated definition, the original body otherwise —
is the one flattened and hoisted; a skip-decorated definition is dropped
entirely; and after hoisting and import scraping every remaining top-level
statement becomes the body of a synthesized `respond` method appended last
to the class body. -/
theorem C8_flattener :
    (∀ name args decs body body' hoisted,
      "EZIO_skip" ∉ decs →
      strStartsWith name BLOCK_TAG = true →
      strLen (strDrop name (strLen BLOCK_TAG)) ≠ 0 →
      flattenStmtList (if "EZIO_noop" ∈ decs then [Stmt.passStmt] else body) =
        .ok (body', hoisted) →
      flattenStmt (.funcDef name args decs body) =
        .ok (some (.exprCall (strDrop name (strLen BLOCK_TAG))),
          hoisted ++ [.funcDef (strDrop name (strLen BLOCK_TAG)) ("self" :: args) decs body'])) ∧
    (∀ name args decs body body' hoisted,
      "EZIO_skip" ∉ decs →
      strStartsWith name BLOCK_TAG = false →
      flattenStmtList (if "EZIO_noop" ∈ decs then [Stmt.passStmt] else body) =
        .ok (body', hoisted) →
      flattenStmt (.funcDef name args decs body) =
        .ok (none, hoisted ++ [.funcDef name ("self" :: args) decs body'])) ∧
    (∀ name args decs body,
      "EZIO_skip" ∈ decs →
      flattenStmt (.funcDef name args decs body) = .ok (none, [])) ∧
    (∀ tmplName body bases body1 body2 hoisted,
      resolveBaseClass body = .ok (bases, body1) →
      flattenStmtList body1 = .ok (body2, hoisted) →
      translate tmplName body = .ok
        ((scrapeImports body2).1 ++
          [.classDef tmplName bases
            (hoisted ++ [createRespond (scrapeImports body2).2])])) := by
  refine ⟨?_, ?_, ?_, ?_⟩
  · intro name args decs body body' hoisted hskip htag hname hflat
    by_cases hnoop : "EZIO_noop" ∈ decs
    · rw [if_pos hnoop,
        show flattenStmtList [Stmt.passStmt] =
          Except.ok ([Stmt.passStmt], ([] : List Stmt)) from rfl] at hflat
      simp only [Except.ok.injEq, Prod.mk.injEq] at hflat
      obtain ⟨h1, h2⟩ := hflat
      subst h1
      subst h2
      simp [flattenStmt, hoistFuncDef, hskip, hnoop, htag, hname]
    · rw [if_neg hnoop] at hflat
      simp [flattenStmt, hoistFuncDef, hskip, hnoop, htag, hname, hflat]
  · intro name args decs body body' hoisted hskip htag hflat
    by_cases hnoop : "EZIO_noop" ∈ decs
    · rw [if_pos hnoop,
        show flattenStmtList [Stmt.passStmt] =
          Except.ok ([Stmt.passStmt], ([] : List Stmt)) from rfl] at hflat
      simp only [Except.ok.injEq, Prod.mk.injEq] at hflat
      obtain ⟨h1, h2⟩ := hflat
      subst h1
      subst h2
      simp [flattenStmt, hoistFuncDef, hskip, hnoop, htag]
    · rw [if_neg hnoop] at hflat
      simp [flattenStmt, hoistFuncDef, hskip, hnoop, htag, hflat]
  · intro name args decs body hskip
    simp [flattenStmt, hskip]
  · intro tmplName body bases body1 body2 hoisted hb hf
    simp [translate, hb, hf]

/-- Claim C8 witness: the amended behavior at a concrete block-tagged
definition, a concrete noop-decorated block definition (hoisted with its
body wiped to `pass`, call still left behind), and a concrete module
body. -/
theorem C8_witness :
    flattenStmt (.funcDef "DIRECTIVE__block__foo" ["x"] [] [.other 7]) =
      .ok (some (.exprCall (strDrop "DIRECTIVE__block__foo" (strLen BLOCK_TAG))),
        [] ++ [.funcDef (strDrop "DIRECTIVE__block__foo" (strLen BLOCK_TAG))
          ("self" :: ["x"]) [] [.other 7]]) ∧
    flattenStmt (.funcDef "DIRECTIVE__block__bar" [] ["EZIO_noop"] [.other 9]) =
      .ok (some (.exprCall (strDrop "DIRECTIVE__block__bar" (strLen BLOCK_TAG))),
        [] ++ [.funcDef (strDrop "DIRECTIVE__block__bar" (strLen BLOCK_TAG))
          ("self" :: []) ["EZIO_noop"] [Stmt.passStmt]]) ∧
    translate "T" [Stmt.other 3] = .ok
      ((scrapeImports [Stmt.other 3]).1 ++
        [.classDef "T" []
          ([] ++ [createRespond (scrapeImports [Stmt.other 3]).2])]) :=
  ⟨C8_flattener.1 "DIRECTIVE__block__foo" ["x"] [] [.other 7] [.other 7] []
      (by decide) (by decide) (by decide) rfl,
   C8_flattener.1 "DIRECTIVE__block__bar" [] ["EZIO_noop"] [.other 9] [Stmt.passStmt] []
      (by decide) (by decide) (by decide) rfl,
   C8_flattener.2.2.2 "T" [Stmt.other 3] [] [Stmt.other 3] [Stmt.other 3] [] rfl rfl⟩

/-- Claim C4, counterexample: a chained comparison (two comparison
operators) is rejected by a plain `assert` — an `AssertionError` — not by
the dedicated `EZIOUnsupportedException` type. -/
theorem C4_counterexample :
    checkCompareOps 2 =
      some (.assertionError
        "Multiple comparisons in the same expression are unsupported.") ∧
    (checkCompareOps 2).any PyError.isEzioUnsupported = false := by
  decide

/-- Claim C4, amended: every listed construct outside the restricted subset
is rejected at compile time before emitting code, but by two different
error types: multiple inheritance, starred/double-starred call arguments,
chained comparisons, and multi-target or non-name (tuple-unpacking)
assignment targets are rejected by plain `assert` statements
(`AssertionError`); slicing and bare sequence literals raise the dedicated
`EZIOUnsupportedException`. -/
theorem C4_unsupported_feature_errors :
    (∀ n, 1 < n → checkClassBases n =
      some (.assertionError "Multiple inheritance is unsupported")) ∧
    (∀ st kw, (st || kw) = true → checkCallStarArgs st kw =
      some (.assertionError "Unsupported feature")) ∧
    (∀ n, n ≠ 1 → checkCompareOps n =
      some (.assertionError
        "Multiple comparisons in the same expression are unsupported.")) ∧
    (∀ n isName, n ≠ 1 → checkAssignTargets n isName =
      some (.assertionError "Tuple unpacking is unsupported.")) ∧
    (checkAssignTargets 1 false =
      some (.assertionError "Assign to non-names is unsupported.")) ∧
    (checkSubscriptSlice false = some (.ezioUnsupported "Can't use slices")) ∧
    (checkSequenceTarget false =
      some (.ezioUnsupported "Bare sequence without a variable target")) := by
  refine ⟨?_, ?_, ?_, ?_, rfl, rfl, rfl⟩
  · intro n h
    unfold checkClassBases
    rw [if_neg (by omega)]
  · intro st kw h
    unfold checkCallStarArgs
    rw [if_pos h]
  · intro n h
    unfold checkCompareOps
    rw [if_neg h]
  · intro n isName h
    unfold checkAssignTargets
    rw [if_pos h]

/-- Claim C4 witness: the amended behavior at concrete unsupported
constructs. -/
theorem C4_witness :
    checkClassBases 2 =
      some (.assertionError "Multiple inheritance is unsupported") ∧
    checkCallStarArgs true false =
      some (.assertionError "Unsupported feature") ∧
    checkAssignTargets 2 true =
      some (.assertionError "Tuple unpacking is unsupported.") :=
  ⟨C4_unsupported_feature_errors.1 2 (by decide),
   C4_unsupported_feature_errors.2.1 true false (by decide),
   C4_unsupported_feature_errors.2.2.2.1 2 true (by decide)⟩

/-! Helper lemmas about method tables. -/

theorem lookupMethod_setVirtual_self :
    ∀ (ms : List (String × MethodInfo)) (m : String),
    lookupMethod (setVirtualInList ms m) m =
      (lookupMethod ms m).map (fun i => { i with virtual := true })
  | [], _ => rfl
  | p :: rest, m => by
    have ih := lookupMethod_setVirtual_self rest m
    by_cases h : p.1 = m
    · simp [setVirtualInList, lookupMethod, h]
    · simp only [setVirtualInList] at ih ⊢
      simp [lookupMethod, h, ih]

theorem lookupMethod_setVirtual_other :
    ∀ (ms : List (String × MethodInfo)) (m m' : String), m' ≠ m →
    lookupMethod (setVirtualInList ms m) m' = lookupMethod ms m'
  | [], _, _, _ => rfl
  | p :: rest, m, m', hne => by
    have ih := lookupMethod_setVirtual_other rest m m' hne
    simp only [setVirtualInList] at ih ⊢
    by_cases h : p.1 = m
    · have h' : ¬ (p.1 = m') := by
        rw [h]
        exact fun hc => hne hc.symm
      simp [lookupMethod, h, h', Ne.symm hne, ih]
    · by_cases h2 : p.1 = m'
      · simp [lookupMethod, h, h2, hne, ih]
      · simp [lookupMethod, h, h2, ih]

theorem getMethod_markVirtual_self :
    ∀ (c : ClassDefn) (m : String) (info : MethodInfo),
    c.getMethod m = some info →
    (c.markVirtual m).getMethod m = some { info with virtual := true } := by
  intro c
  induction c with
  | base n ms =>
    intro m info h
    simp only [ClassDefn.getMethod] at h
    simp [ClassDefn.markVirtual, ClassDefn.getMethod,
      lookupMethod_setVirtual_self, h]
  | derived n sup ms ih =>
    intro m info h
    cases hs : sup.getMethod m with
    | some i =>
      have h' : some i = some info := by
        simpa only [ClassDefn.getMethod, hs] using h
      have h2 : i = info := by injection h'
      simp [ClassDefn.markVirtual, hs, ClassDefn.getMethod, ih m i hs, h2]
    | none =>
      have h' : lookupMethod ms m = some info := by
        simpa only [ClassDefn.getMethod, hs] using h
      simp [ClassDefn.markVirtual, hs, ClassDefn.getMethod,
        lookupMethod_setVirtual_self, h']

theorem getMethod_markVirtual_other :
    ∀ (c : ClassDefn) (m m' : String), m' ≠ m →
    (c.markVirtual m).getMethod m' = c.getMethod m' := by
  intro c
  induction c with
  | base n ms =>
    intro m m' hne
    simp only [ClassDefn.markVirtual, ClassDefn.getMethod]
    exact lookupMethod_setVirtual_other ms m m' hne
  | derived n sup ms ih =>
    intro m m' hne
    by_cases hs : (sup.getMethod m).isSome
    · simp only [ClassDefn.markVirtual, if_pos hs, ClassDefn.getMethod,
        ih m m' hne]
    · simp only [ClassDefn.markVirtual, if_neg hs, ClassDefn.getMethod,
        lookupMethod_setVirtual_other ms m m' hne]

theorem lookupMethod_append_self (ms : List (String × MethodInfo)) (m : String)
    (info : MethodInfo) (h : lookupMethod ms m = none) :
    lookupMethod (ms ++ [(m, info)]) m = some info := by
  induction ms with
  | nil => simp [lookupMethod]
  | cons p rest ih =>
    simp only [lookupMethod] at h
    by_cases hp : p.1 = m
    · rw [if_pos hp] at h
      exact absurd h (by simp)
    · rw [if_neg hp] at h
      simpa [lookupMethod, hp] using ih h

theorem lookupMethod_append_other (ms : List (String × MethodInfo))
    (m m' : String) (info : MethodInfo) (hne : m' ≠ m) :
    lookupMethod (ms ++ [(m, info)]) m' = lookupMethod ms m' := by
  induction ms with
  | nil => simp [lookupMethod, Ne.symm hne]
  | cons p rest ih =>
    by_cases hp : p.1 = m'
    · simp [lookupMethod, hp]
    · simpa [lookupMethod, hp] using ih

theorem getMethod_addOwn_other (c : ClassDefn) (m : String)
    (ps ds : List String) (m' : String) (hne : m' ≠ m) :
    (c.addOwnMethod m ps ds).getMethod m' = c.getMethod m' := by
  cases c with
  | base n ms =>
    simp only [ClassDefn.addOwnMethod, ClassDefn.getMethod]
    exact lookupMethod_append_other ms m m' _ hne
  | derived n sup ms =>
    simp only [ClassDefn.addOwnMethod, ClassDefn.getMethod]
    rw [lookupMethod_append_other ms m m' _ hne]

/-- Claim C5: defining the same method name twice in one class is a compile
error; redefining, in a descendant, a method defined somewhere in the
ancestor chain with a different number of positional or defaulted
parameters is a compile error; a compatible redefinition marks the
ancestor's entry (the oldest definition, as returned by `get_method`) as
virtual while the new entry starts non-virtual; and adding a method leaves
the resolution — in particular the virtual flag — of every other method
name unchanged, so a method never overridden stays non-virtual. -/
theorem C5_method_table :
    (∀ (c : ClassDefn) m ps ds, (lookupMethod c.ownMethods m).isSome = true →
      ∃ e, c.addMethod m ps ds = .error e) ∧
    (∀ n sup ms m ps ds info,
      (m = "respond" ∨ m ∉ RESERVED_WORDS) →
      lookupMethod ms m = none →
      ClassDefn.getMethod sup m = some info →
      (info.params.length ≠ ps.length ∨ info.defaults.length ≠ ds.length) →
      (ClassDefn.derived n sup ms).addMethod m ps ds =
        .error (.assertionError "Incompatible superclass definition")) ∧
    (∀ n sup ms m ps ds info,
      (m = "respond" ∨ m ∉ RESERVED_WORDS) →
      lookupMethod ms m = none →
      ClassDefn.getMethod sup m = some info →
      info.params.length = ps.length →
      info.defaults.length = ds.length →
      (ClassDefn.derived n sup ms).addMethod m ps ds =
        .ok (.derived n (sup.markVirtual m) (ms ++ [(m, ⟨m, ps, ds, false⟩)])) ∧
      (sup.markVirtual m).getMethod m = some { info with virtual := true }) ∧
    (∀ (c : ClassDefn) m ps ds c', c.addMethod m ps ds = .ok c' →
      lookupMethod c'.ownMethods m = some ⟨m, ps, ds, false⟩ ∧
      (∀ m', m' ≠ m → c'.getMethod m' = c.getMethod m')) := by
  refine ⟨?_, ?_, ?_, ?_⟩
  · intro c m ps ds h
    unfold ClassDefn.addMethod
    by_cases hres : m ≠ "respond" ∧ m ∈ RESERVED_WORDS
    · rw [if_pos hres]
      exact ⟨_, rfl⟩
    · rw [if_neg hres, if_pos h]
      exact ⟨_, rfl⟩
  · intro n sup ms m ps ds info hres hown hsup hbad
    have hres' : ¬ (m ≠ "respond" ∧ m ∈ RESERVED_WORDS) := by
      rcases hres with h | h
      · exact fun hc => hc.1 h
      · exact fun hc => h hc.2
    unfold ClassDefn.addMethod
    rw [if_neg hres']
    have hown' : lookupMethod (ClassDefn.derived n sup ms).ownMethods m = none := hown
    rw [if_neg (by simp [hown'])]
    rcases hbad with h | h
    · simp [hsup, h]
    · by_cases hp : info.params.length = ps.length
      · simp [hsup, hp, h]
      · simp [hsup, hp]
  · intro n sup ms m ps ds info hres hown hsup hp hd
    have hres' : ¬ (m ≠ "respond" ∧ m ∈ RESERVED_WORDS) := by
      rcases hres with h | h
      · exact fun hc => hc.1 h
      · exact fun hc => h hc.2
    constructor
    · unfold ClassDefn.addMethod
      rw [if_neg hres']
      have hown' : lookupMethod (ClassDefn.derived n sup ms).ownMethods m = none := hown
      rw [if_neg (by simp [hown'])]
      simp [hsup, hp, hd, ClassDefn.addOwnMethod]
    · exact getMethod_markVirtual_self sup m info hsup
  · intro c m ps ds c' h
    unfold ClassDefn.addMethod at h
    by_cases hres : m ≠ "respond" ∧ m ∈ RESERVED_WORDS
    · rw [if_pos hres] at h
      exact absurd h (by simp)
    · rw [if_neg hres] at h
      by_cases hown : (lookupMethod c.ownMethods m).isSome = true
      · rw [if_pos hown] at h
        exact absurd h (by simp)
      · rw [if_neg hown] at h
        have hown' : lookupMethod c.ownMethods m = none :=
          Option.not_isSome_iff_eq_none.mp hown
        cases c with
        | base n ms =>
          simp only [Except.ok.injEq] at h
          subst h
          refine ⟨?_, ?_⟩
          · simp only [ClassDefn.addOwnMethod, ClassDefn.ownMethods]
            exact lookupMethod_append_self ms m _ hown'
          · intro m' hne
            exact getMethod_addOwn_other _ m ps ds m' hne
        | derived n sup ms =>
          dsimp only at h
          rw [show lookupMethod (ClassDefn.derived n sup ms).ownMethods m =
            lookupMethod ms m from rfl] at hown'
          cases hsup : sup.getMethod m with
          | some info =>
            rw [hsup] at h
            dsimp only at h
            by_cases hp : info.params.length = ps.length
            · by_cases hd : info.defaults.length = ds.length
              · rw [if_neg (by simpa using hp), if_neg (by simpa using hd)] at h
                simp only [Except.ok.injEq] at h
                subst h
                refine ⟨?_, ?_⟩
                · simp only [ClassDefn.addOwnMethod, ClassDefn.ownMethods]
                  exact lookupMethod_append_self ms m _ hown'
                · intro m' hne
                  rw [getMethod_addOwn_other _ m ps ds m' hne]
                  simp only [ClassDefn.getMethod,
                    getMethod_markVirtual_other sup m m' hne]
              · rw [if_neg (by simpa using hp), if_pos (by simpa using hd)] at h
                exact absurd h (by simp)
            · rw [if_pos (by simpa using hp)] at h
              exact absurd h (by simp)
          | none =>
            rw [hsup] at h
            dsimp only at h
            simp only [Except.ok.injEq] at h
            subst h
            refine ⟨?_, ?_⟩
            · simp only [ClassDefn.addOwnMethod, ClassDefn.ownMethods]
              exact lookupMethod_append_self ms m _ hown'
            · intro m' hne
              exact getMethod_addOwn_other _ m ps ds m' hne

/-- Claim C5 witness: a concrete two-class hierarchy; the compatible
override of `greet` marks the base-class entry virtual and installs a
non-virtual entry in the subclass. -/
theorem C5_witness :
    (ClassDefn.derived "C" (.base "B" [("greet", ⟨"greet", ["x"], [], false⟩)]) []).addMethod
        "greet" ["y"] [] =
      .ok (.derived "C"
        ((ClassDefn.base "B" [("greet", ⟨"greet", ["x"], [], false⟩)]).markVirtual "greet")
        ([] ++ [("greet", ⟨"greet", ["y"], [], false⟩)])) ∧
    ((ClassDefn.base "B" [("greet", ⟨"greet", ["x"], [], false⟩)]).markVirtual "greet").getMethod
        "greet" = some ⟨"greet", ["x"], [], true⟩ :=
  C5_method_table.2.2.1 "C" (.base "B" [("greet", ⟨"greet", ["x"], [], false⟩)]) []
    "greet" ["y"] [] ⟨"greet", ["x"], [], false⟩
    (Or.inr (by decide)) rfl rfl rfl rfl

/-! Helper lemmas about the literal and path registry intern tables. -/

theorem keyEq_refl (v : PyVal) : keyEq v v = true := by
  cases v <;> simp [keyEq, canonicalizeType, pyValEq]

theorem keyEq_comm (a b : PyVal) : keyEq a b = keyEq b a := by
  cases a <;> cases b <;>
    simp [keyEq, canonicalizeType, pyValEq, eq_comm]

theorem keyEq_canonType {a b : PyVal} (h : keyEq a b = true) :
    canonicalizeType a = canonicalizeType b := by
  simp only [keyEq, Bool.and_eq_true, decide_eq_true_eq] at h
  exact h.1

theorem keyEq_of_canonType_ne {a b : PyVal}
    (h : canonicalizeType a ≠ canonicalizeType b) : keyEq a b = false := by
  simp only [keyEq, Bool.and_eq_true, Bool.and_eq_false_iff]
  left
  simpa using h

theorem lookupLiteralKey_none_iff :
    ∀ (m : List (PyVal × Nat)) (v : PyVal),
    lookupLiteralKey m v = none ↔ ∀ p ∈ m, keyEq p.1 v = false
  | [], v => by simp [lookupLiteralKey]
  | p :: rest, v => by
    by_cases h : keyEq p.1 v = true
    · simp [lookupLiteralKey, h]
    · have h' : keyEq p.1 v = false := by simpa using h
      simp [lookupLiteralKey, h', lookupLiteralKey_none_iff rest v]

theorem lookupLiteralKey_some_mem :
    ∀ (m : List (PyVal × Nat)) (v : PyVal) (i : Nat),
    lookupLiteralKey m v = some i →
    ∃ p, p ∈ m ∧ keyEq p.1 v = true ∧ p.2 = i
  | [], _, _, h => absurd h (by simp [lookupLiteralKey])
  | p :: rest, v, i, h => by
    by_cases hk : keyEq p.1 v = true
    · rw [lookupLiteralKey, if_pos hk] at h
      exact ⟨p, by simp, hk, by injection h⟩
    · rw [lookupLiteralKey, if_neg hk] at h
      obtain ⟨q, hq, hkq, hiq⟩ := lookupLiteralKey_some_mem rest v i h
      exact ⟨q, by simp [hq], hkq, hiq⟩

theorem lookupLiteralKey_append :
    ∀ (m₁ m₂ : List (PyVal × Nat)) (v : PyVal),
    lookupLiteralKey (m₁ ++ m₂) v =
      (lookupLiteralKey m₁ v).orElse (fun _ => lookupLiteralKey m₂ v)
  | [], m₂, v => by simp [lookupLiteralKey]
  | p :: rest, m₂, v => by
    by_cases hk : keyEq p.1 v = true
    · simp [lookupLiteralKey, hk]
    · simp [lookupLiteralKey, hk, lookupLiteralKey_append rest m₂ v]

theorem lookupSubpath_append :
    ∀ (m₁ m₂ : List (List String × String)) (p : List String),
    lookupSubpath (m₁ ++ m₂) p =
      (lookupSubpath m₁ p).orElse (fun _ => lookupSubpath m₂ p)
  | [], m₂, p => by simp [lookupSubpath]
  | q :: rest, m₂, p => by
    by_cases hk : q.1 = p
    · simp [lookupSubpath, hk]
    · simp [lookupSubpath, hk, lookupSubpath_append rest m₂ p]

theorem pairwise_mem_of_distinct {α : Type} {R : α → α → Prop}
    (hsym : ∀ a b, R a b → R b a) :
    ∀ (l : List α), l.Pairwise R →
    ∀ a ∈ l, ∀ b ∈ l, a ≠ b → R a b
  | [], _, a, ha, _, _, _ => absurd ha (by simp)
  | x :: xs, h, a, ha, b, hb, hne => by
    rcases List.pairwise_cons.mp h with ⟨hx, hxs⟩
    rcases List.mem_cons.mp ha with rfl | ha'
    · rcases List.mem_cons.mp hb with rfl | hb'
      · exact absurd rfl hne
      · exact hx b hb'
    · rcases List.mem_cons.mp hb with rfl | hb'
      · exact hsym _ _ (hx a ha')
      · exact pairwise_mem_of_distinct hsym xs hxs a ha' b hb' hne

theorem LiteralRegistry.WF_empty : LiteralRegistry.WF ⟨[], []⟩ := by
  constructor
  · intro p hp
    exact absurd hp (by simp)
  · exact List.Pairwise.nil

theorem LiteralRegistry.WF_register (r : LiteralRegistry) (v : PyVal)
    (h : r.WF) : (r.register v).2.WF := by
  unfold LiteralRegistry.register
  cases hl : lookupLiteralKey r.literalKeyToIndex v with
  | some i => exact h
  | none =>
    obtain ⟨hbound, hpair⟩ := h
    constructor
    · intro p hp
      simp only [List.mem_append, List.mem_singleton] at hp
      rcases hp with hp | hp
      · have := hbound p hp
        simp only [List.length_append, List.length_singleton]
        omega
      · subst hp
        simp only [List.length_append, List.length_singleton]
        omega
    · rw [List.pairwise_append]
      refine ⟨hpair, List.pairwise_singleton _ _, ?_⟩
      intro a ha b hb
      simp only [List.mem_singleton] at hb
      subst hb
      have hk := (lookupLiteralKey_none_iff r.literalKeyToIndex v).mp hl a ha
      have hbd := hbound a ha
      refine ⟨hk, ?_⟩
      simp only [List.length_append, List.length_singleton]
      omega

/-- Claim C7: registering the same literal twice (same canonical type)
returns the same index both times and leaves the registry unchanged;
registering two loosely-equal values of different canonical types returns
different indices (given the invariant maintained from the empty
registry); registering the same dotted-path tuple twice returns the same
generated function name both times. -/
theorem C7_registry_interning :
    (∀ (r : LiteralRegistry) (v : PyVal),
      (r.register v).2.register v = ((r.register v).1, (r.register v).2)) ∧
    (∀ (r : LiteralRegistry) (v w : PyVal), r.WF →
      pyValEq v w = true →
      canonicalizeType v ≠ canonicalizeType w →
      ((r.register v).2.register w).1 ≠ (r.register v).1) ∧
    (∀ (pr : PathRegistry) (p : List String),
      (pr.register p).2.register p = ((pr.register p).1, (pr.register p).2)) := by
  refine ⟨?_, ?_, ?_⟩
  · intro r v
    cases hl : lookupLiteralKey r.literalKeyToIndex v with
    | some i => simp [LiteralRegistry.register, hl]
    | none =>
      simp [LiteralRegistry.register, hl, lookupLiteralKey_append,
        lookupLiteralKey, keyEq_refl]
  · intro r v w hwf hval hcanon
    obtain ⟨hbound, hpair⟩ := hwf
    cases hl : lookupLiteralKey r.literalKeyToIndex v with
    | some i1 =>
      cases hl2 : lookupLiteralKey r.literalKeyToIndex w with
      | some i2 =>
        simp only [LiteralRegistry.register, hl, hl2]
        obtain ⟨p, hp, hkp, hip⟩ := lookupLiteralKey_some_mem _ v i1 hl
        obtain ⟨q, hq, hkq, hiq⟩ := lookupLiteralKey_some_mem _ w i2 hl2
        have hpq : p ≠ q := by
          intro hc
          subst hc
          exact hcanon ((keyEq_canonType hkp).symm.trans (keyEq_canonType hkq))
        have hsym : ∀ (a b : PyVal × Nat),
            (keyEq a.1 b.1 = false ∧ a.2 ≠ b.2) →
            (keyEq b.1 a.1 = false ∧ b.2 ≠ a.2) := by
          intro a b ⟨h1, h2⟩
          exact ⟨(keyEq_comm b.1 a.1).trans h1, fun hc => h2 hc.symm⟩
        have := pairwise_mem_of_distinct hsym _ hpair p hp q hq hpq
        rw [← hip, ← hiq]
        exact fun hc => this.2 hc.symm
      | none =>
        simp only [LiteralRegistry.register, hl, hl2]
        obtain ⟨p, hp, _, hip⟩ := lookupLiteralKey_some_mem _ v i1 hl
        have := hbound p hp
        simp only [List.length_append, List.length_singleton]
        omega
    | none =>
      have hkvw : keyEq v w = false := keyEq_of_canonType_ne hcanon
      cases hl2 : lookupLiteralKey r.literalKeyToIndex w with
      | some i2 =>
        obtain ⟨q, hq, _, hiq⟩ := lookupLiteralKey_some_mem _ w i2 hl2
        have := hbound q hq
        simp [LiteralRegistry.register, hl, lookupLiteralKey_append, hl2]
        omega
      | none =>
        simp [LiteralRegistry.register, hl, lookupLiteralKey_append, hl2,
          lookupLiteralKey, hkvw]
  · intro pr p
    cases hl : lookupSubpath pr.subpathToFname p with
    | some f => simp [PathRegistry.register, hl]
    | none =>
      simp [PathRegistry.register, hl, lookupSubpath_append, lookupSubpath]

/-- Claim C7 witness: interning `3`, `3.0` and a path twice, from the
empty registries. -/
theorem C7_witness :
    ((LiteralRegistry.mk [] []).register (.int 3)).2.register (.int 3) =
      (((LiteralRegistry.mk [] []).register (.int 3)).1,
        ((LiteralRegistry.mk [] []).register (.int 3)).2) ∧
    ((((LiteralRegistry.mk [] []).register (.int 3)).2.register (.float 3)).1 ≠
      ((LiteralRegistry.mk [] []).register (.int 3)).1) ∧
    ((PathRegistry.mk [] 0 ⟨[], []⟩).register ["foo", "bar"]).2.register ["foo", "bar"] =
      (((PathRegistry.mk [] 0 ⟨[], []⟩).register ["foo", "bar"]).1,
        ((PathRegistry.mk [] 0 ⟨[], []⟩).register ["foo", "bar"]).2) :=
  ⟨C7_registry_interning.1 ⟨[], []⟩ (.int 3),
   C7_registry_interning.2.1 ⟨[], []⟩ (.int 3) (.float 3)
     LiteralRegistry.WF_empty (by decide) (by decide),
   C7_registry_interning.2.2 ⟨[], 0, ⟨[], []⟩⟩ ["foo", "bar"]⟩

/-! Helper lemmas about the emitted path-lookup functions. -/

theorem bumpRef_cancel (rc : RefCount) (o : Obj) :
    bumpRef (bumpRef rc o 1) o (-1) = rc := by
  funext x
  unfold bumpRef
  by_cases h : x = o
  · rw [if_pos h, if_pos h]
    omega
  · rw [if_neg h, if_neg h]

theorem resolvePathLoop_some (rt : PyRuntime) :
    ∀ (segs : List String) (b : Obj) (rc : RefCount) (v : Obj) (rc' : RefCount),
    segs ≠ [] → resolvePathLoop rt segs b rc = (some v, rc') →
    rc' = bumpRef rc v 1
  | [], _, _, _, _, hne, _ => absurd rfl hne
  | [s], b, rc, v, rc', _, h => by
    unfold resolvePathLoop pathSegmentStep at h
    cases hd : rt.dictGet b s with
    | some t =>
      rw [hd] at h
      dsimp only at h
      obtain ⟨h1, h2⟩ := Prod.mk.injEq .. ▸ h
      obtain rfl : t = v := by injection h1
      exact h2.symm
    | none =>
      rw [hd] at h
      dsimp only at h
      cases ha : rt.getAttr b s with
      | some t =>
        rw [ha] at h
        dsimp only at h
        obtain ⟨h1, h2⟩ := Prod.mk.injEq .. ▸ h
        obtain rfl : t = v := by injection h1
        exact h2.symm
      | none =>
        rw [ha] at h
        dsimp only at h
        exact absurd h (by simp)
  | s :: s' :: rest, b, rc, v, rc', _, h => by
    unfold resolvePathLoop pathSegmentStep at h
    cases hd : rt.dictGet b s with
    | some t =>
      rw [hd] at h
      dsimp only at h
      exact resolvePathLoop_some rt (s' :: rest) t rc v rc' (by simp) h
    | none =>
      rw [hd] at h
      dsimp only at h
      cases ha : rt.getAttr b s with
      | some t =>
        rw [ha] at h
        dsimp only at h
        rw [bumpRef_cancel] at h
        exact resolvePathLoop_some rt (s' :: rest) t rc v rc' (by simp) h
      | none =>
        rw [ha] at h
        dsimp only at h
        exact absurd h (by simp)

theorem resolvePathLoop_none (rt : PyRuntime) :
    ∀ (segs : List String) (b : Obj) (rc : RefCount) (rc' : RefCount),
    resolvePathLoop rt segs b rc = (none, rc') → rc' = rc
  | [], b, rc, rc', h => absurd h (by simp [resolvePathLoop])
  | [s], b, rc, rc', h => by
    unfold resolvePathLoop pathSegmentStep at h
    cases hd : rt.dictGet b s with
    | some t =>
      rw [hd] at h
      dsimp only at h
      exact absurd h (by simp)
    | none =>
      rw [hd] at h
      dsimp only at h
      cases ha : rt.getAttr b s with
      | some t =>
        rw [ha] at h
        dsimp only at h
        exact absurd h (by simp)
      | none =>
        rw [ha] at h
        dsimp only at h
        obtain ⟨-, h2⟩ := Prod.mk.injEq .. ▸ h
        exact h2.symm
  | s :: s' :: rest, b, rc, rc', h => by
    unfold resolvePathLoop pathSegmentStep at h
    cases hd : rt.dictGet b s with
    | some t =>
      rw [hd] at h
      dsimp only at h
      exact resolvePathLoop_none rt (s' :: rest) t rc rc' h
    | none =>
      rw [hd] at h
      dsimp only at h
      cases ha : rt.getAttr b s with
      | some t =>
        rw [ha] at h
        dsimp only at h
        rw [bumpRef_cancel] at h
        exact resolvePathLoop_none rt (s' :: rest) t rc rc' h
      | none =>
        rw [ha] at h
        dsimp only at h
        obtain ⟨-, h2⟩ := Prod.mk.injEq .. ▸ h
        exact h2.symm

/-- Claim C6: the emitted lookup function fails immediately on a null base
or on any failing segment; per segment it tries the dictionary lookup
first, falling back to a generic attribute lookup on a dictionary miss; on
success it returns an owned reference — the net reference-count effect is
exactly one increment on the returned object (attribute-lookup references
on non-final segments are discarded, a dictionary hit on the final segment
is incremented); on failure reference counts are unchanged; and the empty
path is the identity with an explicit increment. -/
theorem C6_path_lookup :
    (∀ (rt : PyRuntime) subpath rc,
      resolvePathFun rt subpath none rc = (none, rc)) ∧
    (∀ (rt : PyRuntime) b rc,
      resolvePathFun rt [] (some b) rc = (some b, bumpRef rc b 1)) ∧
    (∀ (rt : PyRuntime) s lastItem b rc v, rt.dictGet b s = some v →
      pathSegmentStep rt s lastItem b rc =
        (some v, if lastItem then bumpRef rc v 1 else rc)) ∧
    (∀ (rt : PyRuntime) s lastItem b rc v,
      rt.dictGet b s = none → rt.getAttr b s = some v →
      pathSegmentStep rt s lastItem b rc =
        (some v, if lastItem then bumpRef rc v 1 else rc)) ∧
    (∀ (rt : PyRuntime) s lastItem b rc,
      rt.dictGet b s = none → rt.getAttr b s = none →
      pathSegmentStep rt s lastItem b rc = (none, rc)) ∧
    (∀ (rt : PyRuntime) subpath base rc v rc',
      resolvePathFun rt subpath base rc = (some v, rc') →
      rc' = bumpRef rc v 1) ∧
    (∀ (rt : PyRuntime) subpath base rc rc',
      resolvePathFun rt subpath base rc = (none, rc') → rc' = rc) := by
  refine ⟨?_, ?_, ?_, ?_, ?_, ?_, ?_⟩
  · intro rt subpath rc
    rfl
  · intro rt b rc
    rfl
  · intro rt s lastItem b rc v hd
    unfold pathSegmentStep
    rw [hd]
    cases lastItem <;> simp
  · intro rt s lastItem b rc v hd ha
    unfold pathSegmentStep
    rw [hd, ha]
    cases lastItem <;> simp [bumpRef_cancel]
  · intro rt s lastItem b rc hd ha
    unfold pathSegmentStep
    rw [hd, ha]
  · intro rt subpath base rc v rc' h
    cases base with
    | none => exact absurd h (by simp [resolvePathFun])
    | some b =>
      cases subpath with
      | nil =>
        obtain ⟨h1, h2⟩ := Prod.mk.injEq .. ▸ h
        obtain rfl : b = v := by injection h1
        exact h2.symm
      | cons s rest =>
        exact resolvePathLoop_some rt (s :: rest) b rc v rc' (by simp) h
  · intro rt subpath base rc rc' h
    cases base with
    | none =>
      obtain ⟨-, h2⟩ := Prod.mk.injEq .. ▸ h
      exact h2.symm
    | some b =>
      cases subpath with
      | nil => exact absurd h (by simp [resolvePathFun])
      | cons s rest =>
        exact resolvePathLoop_none rt (s :: rest) b rc rc' h

/-- Claim C6 witness: a one-segment lookup against a runtime whose
dictionary always hits returns an owned reference to the found object. -/
theorem C6_witness :
    (resolvePathFun ⟨fun _ _ => some 2, fun _ _ => none⟩ ["bar"] (some 1)
        (fun _ => 0)).2 = bumpRef (fun _ => 0) 2 1 :=
  C6_path_lookup.2.2.2.2.2.1 ⟨fun _ _ => some 2, fun _ _ => none⟩ ["bar"]
    (some 1) (fun _ => 0) 2 _ rfl

/-- Claim C1, counterexample: for a name that is both a statically known
builtin and a statically bound import symbol (here `True`, bound by an
import), `visit_Name` resolves it to the import accessor — the import
table is consulted before the builtin table, contrary to the claimed
builtin-before-import order. -/
theorem C1_counterexample :
    visitNameTarget ⟨[], [(["True"], 0)], true, "H"⟩ "True" "t" ≠
      visitNameSpecOrder ⟨[], [(["True"], 0)], true, "H"⟩ "True" "t" ∧
    visitNameTarget ⟨[], [(["True"], 0)], true, "H"⟩ "True" "t" =
      .ok ([.assign "t" "imported_names[0]"], false) ∧
    visitNameSpecOrder ⟨[], [(["True"], 0)], true, "H"⟩ "True" "t" =
      .ok ([.assign "t" "Py_True"], false) := by
  refine ⟨?_, rfl, rfl⟩
  intro h
  have h' : (Except.ok ([CLine.assign "t" "imported_names[0]"], false) :
      Except PyError (List CLine × Bool)) =
      .ok ([CLine.assign "t" "Py_True"], false) := h
  simp at h'

/-- Claim C1, amended: a bare identifier is resolved in this order: (1) a
lexical/native local — with a nullness check raising a name-not-found
error for a may-be-unset assignment target; (2) a statically bound import
symbol; (3) a statically known builtin; (4) only in template mode, a
dynamic lookup in the display dictionary, which always returns a newly
owned reference (the visit reports `True`) and on a missing key raises a
key-not-found error carrying the name and jumps to the current exception
handler. -/
theorem C1_name_resolution :
    (∀ env name target st, getNameStatus env name = some st →
      st.accessor = "NATIVE" → st.null = false →
      visitNameTarget env name target = .ok ([.assign target name], false)) ∧
    (∀ env name target st, getNameStatus env name = some st →
      st.accessor = "NATIVE" → st.null = true →
      visitNameTarget env name target =
        .ok ([.nameErrorCheck name name env.handler, .assign target name], false)) ∧
    (∀ env name target i, getNameStatus env name = none →
      env.importSymbols.findSome?
        (fun p => if p.1 = [name] then some p.2 else none) = some i →
      visitNameTarget env name target =
        .ok ([.assign target ("imported_names[" ++ toString i ++ "]")], false)) ∧
    (∀ env name target c, getNameStatus env name = none →
      importResolveName env name = none →
      builtinResolveName name = some c →
      visitNameTarget env name target = .ok ([.assign target c], false)) ∧
    (∀ env name target, getNameStatus env name = none →
      importResolveName env name = none →
      builtinResolveName name = none →
      env.templateMode = true →
      visitNameTarget env name target =
        .ok ([.displayGetItem target name,
              .keyErrorCheck target name env.handler,
              .incref target], true)) ∧
    (∀ env name target, getNameStatus env name = none →
      importResolveName env name = none →
      builtinResolveName name = none →
      env.templateMode = false →
      ∃ e, visitNameTarget env name target = .error e) := by
  refine ⟨?_, ?_, ?_, ?_, ?_, ?_⟩
  · intro env name target st hst hacc hnull
    simp [visitNameTarget, localResolveName, hst, hacc, hnull]
  · intro env name target st hst hacc hnull
    simp [visitNameTarget, localResolveName, hst, hacc, hnull]
  · intro env name target i hst himp
    simp [visitNameTarget, localResolveName, hst, importResolveName, himp,
      Option.orElse]
  · intro env name target c hst himp hb
    simp [visitNameTarget, localResolveName, hst, himp, hb, Option.orElse]
  · intro env name target hst himp hb hmode
    simp [visitNameTarget, localResolveName, hst, himp, hb, hmode,
      visitNameFromDisplay, Option.orElse]
  · intro env name target hst himp hb hmode
    refine ⟨.exception ("Not in template mode; can't resolve " ++ name ++ " statically"), ?_⟩
    simp [visitNameTarget, localResolveName, hst, himp, hb, hmode,
      Option.orElse]

/-- Claim C1 witness: the amended order at concrete environments — an
import-bound builtin name resolves to the import slot; an unbound name in
template mode resolves from the display dictionary with a new reference. -/
theorem C1_witness :
    visitNameTarget ⟨[], [(["True"], 0)], true, "H"⟩ "True" "t" =
      .ok ([.assign "t" ("imported_names[" ++ toString 0 ++ "]")], false) ∧
    visitNameTarget ⟨[], [], true, "H"⟩ "user" "t" =
      .ok ([.displayGetItem "t" "user",
            .keyErrorCheck "t" "user" "H",
            .incref "t"], true) :=
  ⟨C1_name_resolution.2.2.1 ⟨[], [(["True"], 0)], true, "H"⟩ "True" "t" 0 rfl rfl,
   C1_name_resolution.2.2.2.2.1 ⟨[], [], true, "H"⟩ "user" "t" rfl rfl rfl rfl⟩

/-- Claim C2: `visit_IfExp` reconciles branch ownership (when exactly one
branch reports a new reference, the other branch acquires one, and the
final ownership on both paths equals the reported status), and
`visit_BoolOp` does the same whenever the second operand is not itself a
`BoolOp` node; but when the second operand is a nested `BoolOp` that
reports no new reference while the first operand does, no `Py_INCREF` is
inserted on the evaluated path, whose final ownership then disagrees with
the reported status — the reconciliation the code's own comment promises
("enforce identical reference creation status for both code paths") is
skipped. -/
theorem C2_branch_ownership :
    (∀ b1 b2, ((b1 = true ∧ b2 = false) ∨ (b1 = false ∧ b2 = true)) →
      (ifExpIncrefs b1 b2).1 = !b1 ∧ (ifExpIncrefs b1 b2).2 = !b2 ∧
      (b1 || (ifExpIncrefs b1 b2).1) = ifExpNewref b1 b2 ∧
      (b2 || (ifExpIncrefs b1 b2).2) = ifExpNewref b1 b2) ∧
    (∀ b1 b2, boolOpEvalPathOwns b1 b2 false = boolOpNewref b1 b2 ∧
      boolOpShortCircuitOwns b1 b2 false = boolOpNewref b1 b2) ∧
    (boolOpIncrefs true false true = (false, false) ∧
      boolOpEvalPathOwns true false true = false ∧
      boolOpNewref true false = true) := by
  refine ⟨?_, ?_, ?_⟩
  · decide
  · decide
  · decide

/-- Claim C2 witness: the `visit_IfExp` reconciliation at a concrete
one-sided input. -/
theorem C2_witness :
    (ifExpIncrefs true false).1 = !true ∧ (ifExpIncrefs true false).2 = !false ∧
    (true || (ifExpIncrefs true false).1) = ifExpNewref true false ∧
    (false || (ifExpIncrefs true false).2) = ifExpNewref true false :=
  C2_branch_ownership.1 true false (Or.inl ⟨rfl, rfl⟩)

end Ezio
